import Mathlib

/-!
Verification development for the list-scraping core of the e2e-etl-pipeline
repository (`src/DataExtract/extract_data.py`) together with the file-naming
helpers it relies on (`src/config.py`).

The browser is modelled as an environment: a function from round number to the
DOM state the collector observes in that round.  Each Python method of the two
collectors is embedded as a Lean function over that environment; exceptions
become `Except.error`, and Python's `int(...)` becomes a partial parser
returning `Option Int`.
-/

set_option autoImplicit false

deriving instance DecidableEq for Except

namespace Etl

/-- A snapshot row produced by the injected script of
`JustJoinITScraper._collect_visible_items`: the `data-index` attribute
(`none` when the attribute is absent, mirroring a `null` from
`getAttribute`) and the node's `outerHTML`. -/
abbrev Row := Option String × String

/-- Value of a nonempty run of decimal digits; `none` when the character list
is empty or contains a non-digit. -/
def digitsVal (cs : List Char) : Option Nat :=
  if cs.isEmpty then none
  else cs.foldl (fun acc c =>
    acc.bind (fun n => if c.isDigit then some (10 * n + (c.toNat - 48)) else none)) (some 0)

/-- Python `int(s)` on a string: an optional sign followed by at least one
decimal digit succeeds, anything else makes `none` model the raised
`ValueError`.  (The surrounding-whitespace and digit-underscore forms that
`int` also accepts are left out of the model: the parsed strings here are
`data-index` attribute values and directory names.) -/
def parseInt (s : String) : Option Int :=
  match s.toList with
  | '-' :: rest => (digitsVal rest).map (fun n => -(n : Int))
  | '+' :: rest => (digitsVal rest).map (fun n => (n : Int))
  | cs => (digitsVal cs).map (fun n => (n : Int))

/-- Map a fallible function over a list, failing on the first `none`
(the behaviour of exhausting a Python generator that may raise). -/
def mapOpt {α β : Type} (f : α → Option β) : List α → Option (List β)
  | [] => some []
  | a :: as => (f a).bind (fun b => (mapOpt f as).map (fun bs => b :: bs))

/-- Lookup in the insertion-ordered association list that models the Python
dict `seen`; returns the value of the first pair with the given key. -/
def lookupKey (k : String) : List (String × String) → Option String
  | [] => none
  | kv :: rest => if kv.1 = k then some kv.2 else lookupKey k rest

/-- One iteration of the row loop in `_collect_visible_items`:
`if idx is not None and idx not in seen: seen[idx] = row["html"]`.
A fresh key is appended (dicts preserve insertion order); an existing key is
left untouched — first observation wins. -/
def insertRow (seen : List (String × String)) (r : Row) : List (String × String) :=
  match r.1 with
  | none => seen
  | some idx => if (lookupKey idx seen).isSome then seen else seen ++ [(idx, r.2)]

/-- `JustJoinITScraper._collect_visible_items`: merge one scripted snapshot of
the currently rendered rows into `seen`. -/
def collect_visible_items (rows : List Row) (seen : List (String × String)) :
    List (String × String) :=
  rows.foldl insertRow seen

/-- Merging a whole sequence of snapshots, starting from the empty dict, the
way `scrape` does across its rounds. -/
def mergeAll (snaps : List (List Row)) : List (String × String) :=
  snaps.foldl (fun seen rows => collect_visible_items rows seen) []

/-- The markup of the first row of the stream carrying index `k`
(rows with an absent index never match). -/
def first_observation (rows : List Row) (k : String) : Option String :=
  match rows with
  | [] => none
  | r :: rest => if r.1 = some k then some r.2 else first_observation rest k

/-- Keys of `seen` parsed in order, as evaluated by
`(int(k) for k in seen.keys())`; `none` models the `ValueError` raised on the
first unparsable key. -/
def parseKeys (seen : List (String × String)) : Option (List Int) :=
  mapOpt (fun kv => parseInt kv.1) seen

/-- `max((int(k) for k in seen.keys()), default=-1)`: `-1` for the empty dict,
otherwise the maximum of the parsed keys; `none` models a parse failure. -/
def maxIdx (seen : List (String × String)) : Option Int :=
  match parseKeys seen with
  | none => none
  | some [] => some (-1)
  | some (v :: vs) => some (vs.foldl max v)

/-- Stable ascending insertion by parsed key value: a new pair goes after every
pair with a value `≤` its own, matching the stable sort
`sorted(seen, key=lambda x: int(x))`. -/
def insertKeyNum : List (String × Int) → (String × Int) → List (String × Int)
  | [], p => [p]
  | q :: qs, p => if p.2 < q.2 then p :: q :: qs else q :: insertKeyNum qs p

/-- Each key paired with its parsed integer value; `none` on a parse failure. -/
def keyVals (keys : List String) : Option (List (String × Int)) :=
  mapOpt (fun k => (parseInt k).map (fun v => (k, v))) keys

/-- `sorted(seen, key=lambda x: int(x))`: the keys in ascending numeric order
(stable for equal values), or `none` when some key does not parse. -/
def sortKeysNum (keys : List String) : Option (List String) :=
  (keyVals keys).map (fun ps => (ps.foldl insertKeyNum []).map Prod.fst)

/-- Error message standing for a Selenium `TimeoutException` from
`wait.until(...)`. -/
def timeoutMsg : String := "TimeoutException"

/-- Error message standing for the `ValueError` raised by `int(...)` on a
non-numeric key. -/
def intErrMsg : String := "ValueError"

/-- The final line of `JustJoinITScraper.scrape`:
`"<ul>" + "".join(seen[k] for k in sorted(seen, key=lambda x: int(x))) + "</ul>"`. -/
def mergeDocument (seen : List (String × String)) : Except String String :=
  match sortKeysNum (seen.map Prod.fst) with
  | none => .error intErrMsg
  | some ks =>
    .ok ("<ul>" ++ String.join (ks.map (fun k => (lookupKey k seen).getD "")) ++ "</ul>")

/-- The loop state of `JustJoinITScraper.scrape`: the dict `seen` and the
variables `stale_rounds`, `last_count`, `last_max_idx`. -/
structure LoopState where
  seen : List (String × String)
  staleRounds : Nat
  lastCount : Nat
  lastMaxIdx : Int
  deriving DecidableEq, Repr

/-- `progressed = (current_count > last_count) or (current_max_idx > last_max_idx)`. -/
def progressed (st : LoopState) (curCount : Nat) (curMax : Int) : Bool :=
  decide (curCount > st.lastCount) || decide (curMax > st.lastMaxIdx)

/-- One iteration body of the round loop of `JustJoinITScraper.scrape`, up to
(but not including) the `break` test: the structural wait for an item node
(which times out exactly when the round's snapshot is empty), the merge, the
count/max computation and the stale-counter update.  The scroll and sleep have
no effect beyond selecting the next round's snapshot, which the environment
already encodes. -/
def stepState (rows : List Row) (st : LoopState) : Except String LoopState :=
  if rows = [] then .error timeoutMsg
  else
    let seen := collect_visible_items rows st.seen
    match maxIdx seen with
    | none => .error intErrMsg
    | some curMax =>
      let stale := if progressed st seen.length curMax then 0 else st.staleRounds + 1
      .ok ⟨seen, stale, seen.length, curMax⟩

/-- The round loop `for _ in range(max_rounds)` of `JustJoinITScraper.scrape`.
`fuel` is the number of remaining rounds, `t` the absolute round index picking
the snapshot out of the environment `snap`.  The loop breaks (returning the
merged dict) once `stale_rounds >= max_stale_rounds`. -/
def roundLoop (snap : Nat → List Row) (maxStale : Nat) :
    Nat → Nat → LoopState → Except String (List (String × String))
  | 0, _, st => .ok st.seen
  | fuel + 1, t, st =>
    match stepState (snap t) st with
    | .error e => .error e
    | .ok st' =>
      if maxStale ≤ st'.staleRounds then .ok st'.seen
      else roundLoop snap maxStale fuel (t + 1) st'

/-- The pre-loop part of `JustJoinITScraper.scrape`: the initial
`_collect_visible_items(seen)` call on an empty dict and the initialisation
`stale_rounds = 0; last_count = len(seen); last_max_idx = max(..., default=-1)`. -/
def initSt (initRows : List Row) : Except String LoopState :=
  let seen := collect_visible_items initRows []
  match maxIdx seen with
  | none => .error intErrMsg
  | some m => .ok ⟨seen, 0, seen.length, m⟩

/-- `_accept_cookies_if_present` / `_close_popup_if_present`: every outcome of
the attempted dismissal is swallowed (`except Exception: pass`). -/
def tryDismiss (outcome : Except String Unit) : Unit :=
  match outcome with
  | .ok _ => ()
  | .error _ => ()

/-- The `try: total = self._parse_total_offers(); print(...) except: print(...)`
block: both outcomes only print, neither escapes nor feeds the loop. -/
def logTotalOffers (outcome : Except String Nat) : Unit :=
  match outcome with
  | .ok _ => ()
  | .error _ => ()

/-- `JustJoinITScraper.scrape`.  The environment is the initial snapshot
(taken before the loop, without a wait) and the per-round snapshots `snap`;
`cookie` and `totalParse` are the outcomes of the two advisory steps. -/
def scrapeJJ (initRows : List Row) (snap : Nat → List Row)
    (cookie : Except String Unit) (totalParse : Except String Nat)
    (maxStale maxRounds : Nat) : Except String String :=
  let _ := tryDismiss cookie
  let _ := logTotalOffers totalParse
  match initSt initRows with
  | .error e => .error e
  | .ok st0 =>
    match roundLoop snap maxStale maxRounds 0 st0 with
    | .error e => .error e
    | .ok seen => mergeDocument seen

/-- Ghost trace of the keyed round loop: the state after `n` full iterations,
ignoring the `break` test (used to express "the loop ran all its rounds"). -/
def iterState (snap : Nat → List Row) (st : LoopState) : Nat → Except String LoopState
  | 0 => .ok st
  | n + 1 =>
    match iterState snap st n with
    | .error e => .error e
    | .ok st' => stepState (snap n) st'

/-- The DOM state `PracujPLITScraper.scrape` observes in one round: whether the
offers section is present (its structural wait fails otherwise), the
`outerHTML` of the section's immediate child divs in DOM order, whether the
next-page button is displayed, and whether it becomes clickable for
`_click_next_page`. -/
structure PageState where
  sectionPresent : Bool
  offerDivs : List String
  nextVisible : Bool
  nextClickable : Bool
  deriving DecidableEq, Repr

/-- The page loop `for page in range(max_rounds)` of `PracujPLITScraper.scrape`:
wait for the offers section, append the page's divs to `all_offers`, stop when
the next button is not visible, otherwise click it and continue. -/
def pagedLoop (env : Nat → PageState) :
    Nat → Nat → List String → Except String (List String)
  | 0, _, acc => .ok acc
  | fuel + 1, t, acc =>
    if (env t).sectionPresent = false then .error timeoutMsg
    else
      let acc' := acc ++ (env t).offerDivs
      if (env t).nextVisible = false then .ok acc'
      else if (env t).nextClickable = false then .error timeoutMsg
      else pagedLoop env fuel (t + 1) acc'

/-- `PracujPLITScraper.scrape`: cookie banner, popup and total-count parse are
advisory; the page loop feeds `"<div>" + "".join(all_offers) + "</div>"`. -/
def scrapePracuj (env : Nat → PageState)
    (cookie popup : Except String Unit) (totalParse : Except String Nat)
    (maxRounds : Nat) : Except String String :=
  let _ := tryDismiss cookie
  let _ := tryDismiss popup
  let _ := logTotalOffers totalParse
  match pagedLoop env maxRounds 0 [] with
  | .error e => .error e
  | .ok offers => .ok ("<div>" ++ String.join offers ++ "</div>")

/-- The filesystem seen by `DataScraper.scrape`: written paths with contents. -/
abbrev FileSystem := List (String × String)

/-- `open(filepath, "w").write(merged_html)`: overwrite or create. -/
def writeFile (fs : FileSystem) (path content : String) : FileSystem :=
  (path, content) :: fs.filter (fun kv => kv.1 != path)

/-- `DataScraper.scrape`: run the selected site collector, and only after it
returns successfully build the output path and write the file.  A collector
exception propagates before any path is built or any write happens, leaving
the filesystem untouched. -/
def dataScraperScrape (collectorResult : Except String String)
    (filepath : String) (fs : FileSystem) : Except String String × FileSystem :=
  match collectorResult with
  | .error e => (.error e, fs)
  | .ok doc => (.ok doc, writeFile fs filepath doc)

/-- `s` ends with `t`, compared character by character. -/
def strEndsWithB (s t : String) : Bool :=
  s.toList.reverse.take t.toList.reverse.length == t.toList.reverse

/-- `dir_path.glob(f"*.{extension}")` restricted to one directory of plain
file names: the names ending in `"." ++ ext` (fnmatch `*` also matches the
empty stem and leading dots are not special-cased by `pathlib`). -/
def globExtension (files : List String) (ext : String) : List String :=
  files.filter (fun f => strEndsWithB f ("." ++ ext))

/-- Lexicographic order on character lists by code point, the order Python
uses to compare `str` (and hence single-directory `Path`) values. -/
def charListLt : List Char → List Char → Bool
  | [], [] => false
  | [], _ :: _ => true
  | _ :: _, [] => false
  | a :: as, b :: bs => if a < b then true else if b < a then false else charListLt as bs

/-- Strict lexicographic comparison of two strings. -/
def strLtB (a b : String) : Bool := charListLt a.toList b.toList

/-- Stable descending insertion: a new name goes before the first strictly
smaller one, matching `sorted(..., reverse=True)`. -/
def insertDescStr : List String → String → List String
  | [], a => [a]
  | b :: bs, a => if strLtB b a then a :: b :: bs else b :: insertDescStr bs a

/-- `sorted(files, reverse=True)` on the matching names. -/
def sortDescStr (files : List String) : List String :=
  files.foldl insertDescStr []

/-- `config.get_latest_file`, with the directory abstracted to its listing:
`none` stands for a missing directory (`dir_path.exists()` false), otherwise
the lexicographically greatest matching name is returned, or `none` when no
name matches. -/
def get_latest_file (dirListing : Option (List String)) (ext : String) : Option String :=
  match dirListing with
  | none => none
  | some files =>
    match sortDescStr (globExtension files ext) with
    | [] => none
    | f :: _ => some f

/-- The calendar date encoded by a `ddmmyyyy` stem from `config.get_timestamp`,
as the comparable number `yyyy * 10000 + mm * 100 + dd`. -/
def ddmmyyyyVal (s : String) : Option Nat :=
  match s.toList with
  | [d1, d2, m1, m2, y1, y2, y3, y4] =>
    (digitsVal [y1, y2, y3, y4]).bind (fun y =>
      (digitsVal [m1, m2]).bind (fun m =>
        (digitsVal [d1, d2]).map (fun d => y * 10000 + m * 100 + d)))
  | _ => none

/-! ### Lemmas about the keyed merge -/

theorem insertRow_append (s : List (String × String)) (r : Row) :
    ∃ l, insertRow s r = s ++ l := by
  obtain ⟨idx, h⟩ := r
  cases idx with
  | none => exact ⟨[], by simp [insertRow]⟩
  | some i =>
    by_cases hk : (lookupKey i s).isSome
    · exact ⟨[], by simp [insertRow, hk]⟩
    · exact ⟨[(i, h)], by simp [insertRow, hk]⟩

theorem foldl_insertRow_append (rows : List Row) :
    ∀ s, ∃ l, rows.foldl insertRow s = s ++ l := by
  induction rows with
  | nil => intro s; exact ⟨[], by simp⟩
  | cons r rest ih =>
    intro s
    obtain ⟨l1, h1⟩ := insertRow_append s r
    obtain ⟨l2, h2⟩ := ih (insertRow s r)
    exact ⟨l1 ++ l2, by rw [List.foldl_cons, h2, h1, List.append_assoc]⟩

theorem collect_append (rows : List Row) (s : List (String × String)) :
    ∃ l, collect_visible_items rows s = s ++ l :=
  foldl_insertRow_append rows s

theorem collect_eq_of_length_le (rows : List Row) (s : List (String × String))
    (h : (collect_visible_items rows s).length ≤ s.length) :
    collect_visible_items rows s = s := by
  obtain ⟨l, hl⟩ := collect_append rows s
  rw [hl] at h ⊢
  have hlen : s.length + l.length ≤ s.length := by simpa using h
  have hz : l.length = 0 := by omega
  simp [List.length_eq_zero.mp hz]

theorem lookupKey_isSome_iff (k : String) :
    ∀ s : List (String × String), (lookupKey k s).isSome ↔ k ∈ s.map Prod.fst := by
  intro s
  induction s with
  | nil => simp [lookupKey]
  | cons kv rest ih =>
    by_cases h : kv.1 = k
    · simp [lookupKey, h]
    · have h' : k ≠ kv.1 := fun hh => h hh.symm
      simp [lookupKey, h, ih, h']

theorem lookupKey_mem {k v : String} :
    ∀ {s : List (String × String)}, lookupKey k s = some v → (k, v) ∈ s := by
  intro s
  induction s with
  | nil => intro h; simp [lookupKey] at h
  | cons kv rest ih =>
    intro h
    obtain ⟨k1, v1⟩ := kv
    by_cases he : k1 = k
    · subst he
      simp [lookupKey] at h
      subst h
      exact List.mem_cons_self _ _
    · simp [lookupKey, he] at h
      exact List.mem_cons_of_mem _ (ih h)

theorem lookupKey_append_single (k j v : String) (s : List (String × String)) :
    lookupKey k (s ++ [(j, v)]) =
      (lookupKey k s).or (if j = k then some v else none) := by
  induction s with
  | nil =>
    by_cases h : j = k <;> simp [lookupKey, h, Option.or]
  | cons kv rest ih =>
    by_cases h : kv.1 = k <;> simp [lookupKey, h, ih, Option.or]

theorem lookupKey_foldl (rows : List Row) :
    ∀ (s : List (String × String)) (k : String),
      lookupKey k (rows.foldl insertRow s) =
        (lookupKey k s).or (first_observation rows k) := by
  induction rows with
  | nil => intro s k; simp [first_observation, Option.or_none]
  | cons r rest ih =>
    intro s k
    obtain ⟨idx, h⟩ := r
    rw [List.foldl_cons]
    cases idx with
    | none => simp [insertRow, ih, first_observation]
    | some j =>
      by_cases hjk : j = k
      · subst hjk
        by_cases hk : (lookupKey j s).isSome
        · obtain ⟨v, hv⟩ := Option.isSome_iff_exists.mp hk
          simp [insertRow, hk, ih, first_observation, hv, Option.or]
        · have hnone : lookupKey j s = none := Option.not_isSome_iff_eq_none.mp hk
          simp only [insertRow, hk, if_neg, Bool.false_eq_true, ite_false]
          rw [ih, lookupKey_append_single]
          simp [first_observation, hnone, Option.or]
      · by_cases hk : (lookupKey j s).isSome
        · simp [insertRow, hk, ih, first_observation, hjk]
        · simp only [insertRow, hk, Bool.false_eq_true, ite_false]
          rw [ih, lookupKey_append_single]
          simp [first_observation, hjk, Option.or_none]

theorem nodup_keys_foldl (rows : List Row) :
    ∀ s, (s.map Prod.fst).Nodup → ((rows.foldl insertRow s).map Prod.fst).Nodup := by
  induction rows with
  | nil => intro s h; simpa using h
  | cons r rest ih =>
    intro s h
    rw [List.foldl_cons]
    apply ih
    obtain ⟨idx, hh⟩ := r
    cases idx with
    | none => simpa [insertRow] using h
    | some j =>
      by_cases hk : (lookupKey j s).isSome
      · simpa [insertRow, hk] using h
      · have hj : j ∉ s.map Prod.fst := by
          rw [← lookupKey_isSome_iff]
          simpa using hk
        simp [insertRow, hk, List.nodup_append, h, hj]

theorem mem_foldl_insertRow (rows : List Row) :
    ∀ s kv, kv ∈ rows.foldl insertRow s →
      kv ∈ s ∨ ∃ r ∈ rows, r.1 = some kv.1 ∧ r.2 = kv.2 := by
  induction rows with
  | nil => intro s kv h; exact Or.inl (by simpa using h)
  | cons r rest ih =>
    intro s kv h
    rw [List.foldl_cons] at h
    rcases ih _ _ h with h1 | ⟨r', hr', h2⟩
    · obtain ⟨idx, hh⟩ := r
      cases idx with
      | none => exact Or.inl (by simpa [insertRow] using h1)
      | some j =>
        by_cases hk : (lookupKey j s).isSome
        · simp only [insertRow, hk, Bool.false_eq_true, ite_true] at h1
          exact Or.inl h1
        · simp only [insertRow, hk, Bool.false_eq_true, ite_false] at h1
          rcases List.mem_append.mp h1 with h2 | h2
          · exact Or.inl h2
          · simp at h2
            subst h2
            exact Or.inr ⟨(some j, hh), List.mem_cons_self _ _, rfl, rfl⟩
    · exact Or.inr ⟨r', List.mem_cons_of_mem _ hr', h2⟩

theorem mem_keys_foldl_mono (rows : List Row) (s : List (String × String)) {k : String}
    (h : k ∈ s.map Prod.fst) : k ∈ (rows.foldl insertRow s).map Prod.fst := by
  obtain ⟨l, hl⟩ := foldl_insertRow_append rows s
  rw [hl, List.map_append]
  exact List.mem_append_left _ h

theorem key_mem_foldl_of_mem (rows : List Row) :
    ∀ s r k, r ∈ rows → r.1 = some k →
      k ∈ (rows.foldl insertRow s).map Prod.fst := by
  induction rows with
  | nil => intro s r k h; simp at h
  | cons r0 rest ih =>
    intro s r k hmem hk
    rw [List.foldl_cons]
    rcases List.mem_cons.mp hmem with he | ht
    · subst he
      apply mem_keys_foldl_mono
      obtain ⟨idx, hh⟩ := r
      simp at hk
      subst hk
      by_cases hks : (lookupKey k s).isSome
      · have hmem : k ∈ s.map Prod.fst := (lookupKey_isSome_iff k s).mp hks
        simpa [insertRow, hks] using hmem
      · simp [insertRow, hks]
    · exact ih _ _ _ ht hk

theorem mergeAll_flatten (snaps : List (List Row)) :
    mergeAll snaps = snaps.flatten.foldl insertRow [] := by
  unfold mergeAll collect_visible_items
  rw [List.foldl_flatten]

/-- C1: for every sequence of snapshots merged by the keyed collector, the
final CollectedSet contains each key exactly once (its key list has no
duplicates), and looking any key up yields exactly the markup of the first row
of the concatenated observation stream carrying that key — so a later
observation of an already-present key never overwrites the stored value. -/
theorem C1_keyed_merge_first_observation_wins :
    ∀ snaps : List (List Row),
      ((mergeAll snaps).map Prod.fst).Nodup ∧
      ∀ k, lookupKey k (mergeAll snaps) = first_observation snaps.flatten k := by
  intro snaps
  rw [mergeAll_flatten]
  constructor
  · exact nodup_keys_foldl _ [] (by simp)
  · intro k
    rw [lookupKey_foldl]
    simp [lookupKey, Option.or]

/-! ### Lemmas about the stagnation loop -/

theorem progressed_false_iff (st : LoopState) (c : Nat) (m : Int) :
    progressed st c m = false ↔ c ≤ st.lastCount ∧ m ≤ st.lastMaxIdx := by
  simp [progressed, not_lt]

theorem stepState_empty (st : LoopState) : stepState [] st = .error timeoutMsg := by
  unfold stepState
  rw [if_pos rfl]

theorem stepState_parse_fail (rows : List Row) (st : LoopState) (hne : rows ≠ [])
    (hmi : maxIdx (collect_visible_items rows st.seen) = none) :
    stepState rows st = .error intErrMsg := by
  unfold stepState
  rw [if_neg hne]
  simp only [hmi]

theorem stepState_ok (rows : List Row) (st : LoopState) (hne : rows ≠ []) (m : Int)
    (hmi : maxIdx (collect_visible_items rows st.seen) = some m) :
    stepState rows st = .ok
      ⟨collect_visible_items rows st.seen,
       if progressed st (collect_visible_items rows st.seen).length m then 0
       else st.staleRounds + 1,
       (collect_visible_items rows st.seen).length, m⟩ := by
  unfold stepState
  rw [if_neg hne]
  simp only [hmi]

theorem stepState_ok_inv (rows : List Row) (st st' : LoopState)
    (h : stepState rows st = .ok st') :
    rows ≠ [] ∧ ∃ m, maxIdx (collect_visible_items rows st.seen) = some m ∧
      st' = ⟨collect_visible_items rows st.seen,
             if progressed st (collect_visible_items rows st.seen).length m then 0
             else st.staleRounds + 1,
             (collect_visible_items rows st.seen).length, m⟩ := by
  by_cases hne : rows = []
  · subst hne
    rw [stepState_empty] at h
    cases h
  · refine ⟨hne, ?_⟩
    cases hmi : maxIdx (collect_visible_items rows st.seen) with
    | none => rw [stepState_parse_fail rows st hne hmi] at h; cases h
    | some m =>
      rw [stepState_ok rows st hne m hmi] at h
      exact ⟨m, rfl, ((Except.ok.injEq _ _).mp h).symm⟩

theorem roundLoop_succ_ok (snap : Nat → List Row) (maxStale fuel t : Nat)
    (st st' : LoopState) (h : stepState (snap t) st = .ok st') :
    roundLoop snap maxStale (fuel + 1) t st =
      if maxStale ≤ st'.staleRounds then .ok st'.seen
      else roundLoop snap maxStale fuel (t + 1) st' := by
  rw [roundLoop, h]

theorem roundLoop_succ_err (snap : Nat → List Row) (maxStale fuel t : Nat)
    (st : LoopState) (e : String) (h : stepState (snap t) st = .error e) :
    roundLoop snap maxStale (fuel + 1) t st = .error e := by
  rw [roundLoop, h]

theorem roundLoop_stale_run (snap : Nat → List Row) (maxStale : Nat) :
    ∀ (n fuel t : Nat) (st : LoopState),
      st.staleRounds + n = maxStale → 1 ≤ n → n ≤ fuel →
      st.lastCount = st.seen.length →
      maxIdx st.seen = some st.lastMaxIdx →
      (∀ j < n, snap (t + j) ≠ [] ∧
        (collect_visible_items (snap (t + j)) st.seen).length ≤ st.seen.length) →
      roundLoop snap maxStale fuel t st = .ok st.seen := by
  intro n
  induction n with
  | zero => intro fuel t st _ h1; omega
  | succ n ih =>
    intro fuel t st hsum hone hfuel hcount hmax hrounds
    obtain ⟨hne, hlen⟩ := hrounds 0 (by omega)
    rw [Nat.add_zero] at hne hlen
    have hcoll : collect_visible_items (snap t) st.seen = st.seen :=
      collect_eq_of_length_le _ _ hlen
    have hprog : progressed st st.seen.length st.lastMaxIdx = false :=
      (progressed_false_iff _ _ _).mpr ⟨le_of_eq hcount.symm, le_refl _⟩
    have hstep : stepState (snap t) st =
        .ok ⟨st.seen, st.staleRounds + 1, st.seen.length, st.lastMaxIdx⟩ := by
      have := stepState_ok (snap t) st hne st.lastMaxIdx (by rwa [hcoll])
      rwa [hcoll, hprog, if_neg (by simp : ¬ (false = true))] at this
    obtain ⟨fuel', rfl⟩ : ∃ f, fuel = f + 1 := ⟨fuel - 1, by omega⟩
    have hr := roundLoop_succ_ok snap maxStale fuel' t st _ hstep
    rw [show (⟨st.seen, st.staleRounds + 1, st.seen.length, st.lastMaxIdx⟩ :
          LoopState).staleRounds = st.staleRounds + 1 from rfl,
        show (⟨st.seen, st.staleRounds + 1, st.seen.length, st.lastMaxIdx⟩ :
          LoopState).seen = st.seen from rfl] at hr
    rw [hr]
    by_cases hn : n = 0
    · subst hn
      rw [if_pos (by omega : maxStale ≤ st.staleRounds + 1)]
    · rw [if_neg (by omega : ¬ maxStale ≤ st.staleRounds + 1)]
      apply ih fuel' (t + 1) ⟨st.seen, st.staleRounds + 1, st.seen.length, st.lastMaxIdx⟩
      · show st.staleRounds + 1 + n = maxStale
        omega
      · omega
      · omega
      · rfl
      · exact hmax
      · intro j hj
        have := hrounds (j + 1) (by omega)
        rwa [show t + (j + 1) = t + 1 + j from by omega] at this

/-- C2: for the keyed collector with stagnation tolerance `maxStale = k`,
(1) from any loop state with a zeroed stagnation counter, if the next `k`
rounds each register no progress (no growth of the merged item count, hence no
growth of the maximum key), the round loop stops there and returns exactly the
CollectedSet it entered those rounds with — it gained nothing during the stale
rounds; and (2) a round that does register progress (count or max-key
increase) resets the stagnation counter to zero and the loop goes on. -/
theorem C2_stagnation_termination :
    (∀ (snap : Nat → List Row) (maxStale fuel t : Nat) (st : LoopState),
      1 ≤ maxStale → maxStale ≤ fuel →
      st.staleRounds = 0 →
      st.lastCount = st.seen.length →
      maxIdx st.seen = some st.lastMaxIdx →
      (∀ j < maxStale, snap (t + j) ≠ [] ∧
        (collect_visible_items (snap (t + j)) st.seen).length ≤ st.seen.length) →
      roundLoop snap maxStale fuel t st = .ok st.seen)
    ∧
    (∀ (snap : Nat → List Row) (maxStale fuel t : Nat) (st st' : LoopState),
      stepState (snap t) st = .ok st' →
      st'.lastCount > st.lastCount ∨ st'.lastMaxIdx > st.lastMaxIdx →
      st'.staleRounds = 0 ∧
      (1 ≤ maxStale →
        roundLoop snap maxStale (fuel + 1) t st = roundLoop snap maxStale fuel (t + 1) st')) := by
  constructor
  · intro snap maxStale fuel t st h1 h2 h0 hcount hmax hrounds
    exact roundLoop_stale_run snap maxStale maxStale fuel t st (by omega) h1 h2 hcount hmax hrounds
  · intro snap maxStale fuel t st st' hstep hp
    have hzero : st'.staleRounds = 0 := by
      obtain ⟨hne, m, hmi, rfl⟩ := stepState_ok_inv (snap t) st st' hstep
      simp only at hp
      have hptrue : progressed st (collect_visible_items (snap t) st.seen).length m = true := by
        rcases hp with hp | hp
        · simp only [progressed, Bool.or_eq_true, decide_eq_true_eq]
          exact Or.inl hp
        · simp only [progressed, Bool.or_eq_true, decide_eq_true_eq]
          exact Or.inr hp
      simp [hptrue]
    refine ⟨hzero, fun hms => ?_⟩
    rw [roundLoop_succ_ok snap maxStale fuel t st st' hstep,
      if_neg (by omega : ¬ maxStale ≤ st'.staleRounds)]

/-- Concrete instance of C2: one snapshot that re-observes the only collected
item; with `maxStale = 1` the single stale round stops the loop and the
CollectedSet is returned unchanged. -/
theorem C2_stagnation_termination_witness :
    roundLoop (fun _ => [(some "0", "x")]) 1 1 0 ⟨[("0", "x")], 0, 1, 0⟩ =
      .ok [("0", "x")] :=
  C2_stagnation_termination.1 (fun _ => [(some "0", "x")]) 1 1 0
    ⟨[("0", "x")], 0, 1, 0⟩ (by decide) (by decide) rfl rfl (by decide) (by decide)

/-! ### Running the keyed loop to the round cap -/

theorem scrapeJJ_def (initRows : List Row) (snap : Nat → List Row)
    (cookie : Except String Unit) (totalParse : Except String Nat)
    (maxStale maxRounds : Nat) :
    scrapeJJ initRows snap cookie totalParse maxStale maxRounds =
      match initSt initRows with
      | .error e => .error e
      | .ok st0 =>
        match roundLoop snap maxStale maxRounds 0 st0 with
        | .error e => .error e
        | .ok seen => mergeDocument seen := rfl

theorem scrapeJJ_eq_ok (initRows : List Row) (snap : Nat → List Row)
    (cookie : Except String Unit) (totalParse : Except String Nat)
    (maxStale maxRounds : Nat) (st0 : LoopState) (s : List (String × String))
    (h0 : initSt initRows = .ok st0) (hr : roundLoop snap maxStale maxRounds 0 st0 = .ok s) :
    scrapeJJ initRows snap cookie totalParse maxStale maxRounds = mergeDocument s := by
  rw [scrapeJJ_def, h0]
  show (match roundLoop snap maxStale maxRounds 0 st0 with
        | .error e => (.error e : Except String String)
        | .ok seen => mergeDocument seen) = mergeDocument s
  rw [hr]

theorem scrapeJJ_eq_err_init (initRows : List Row) (snap : Nat → List Row)
    (cookie : Except String Unit) (totalParse : Except String Nat)
    (maxStale maxRounds : Nat) (e : String) (h0 : initSt initRows = .error e) :
    scrapeJJ initRows snap cookie totalParse maxStale maxRounds = .error e := by
  rw [scrapeJJ_def, h0]

theorem scrapeJJ_eq_err_loop (initRows : List Row) (snap : Nat → List Row)
    (cookie : Except String Unit) (totalParse : Except String Nat)
    (maxStale maxRounds : Nat) (st0 : LoopState) (e : String)
    (h0 : initSt initRows = .ok st0) (hr : roundLoop snap maxStale maxRounds 0 st0 = .error e) :
    scrapeJJ initRows snap cookie totalParse maxStale maxRounds = .error e := by
  rw [scrapeJJ_def, h0]
  show (match roundLoop snap maxStale maxRounds 0 st0 with
        | .error e => (.error e : Except String String)
        | .ok seen => mergeDocument seen) = .error e
  rw [hr]

theorem initSt_ok_inv (initRows : List Row) (st0 : LoopState)
    (h : initSt initRows = .ok st0) :
    ∃ m, maxIdx (collect_visible_items initRows []) = some m ∧
      st0 = ⟨collect_visible_items initRows [], 0,
             (collect_visible_items initRows []).length, m⟩ := by
  unfold initSt at h
  cases hmi : maxIdx (collect_visible_items initRows []) with
  | none => simp only [hmi] at h; cases h
  | some m =>
    simp only [hmi] at h
    exact ⟨m, rfl, ((Except.ok.injEq _ _).mp h).symm⟩

theorem initSt_ok_of_maxIdx (initRows : List Row) (m : Int)
    (hmi : maxIdx (collect_visible_items initRows []) = some m) :
    initSt initRows = .ok
      ⟨collect_visible_items initRows [], 0,
       (collect_visible_items initRows []).length, m⟩ := by
  unfold initSt
  simp only [hmi]

theorem iterState_succ_front (snap : Nat → List Row) (st : LoopState) :
    ∀ n, iterState snap st (n + 1) =
      match stepState (snap 0) st with
      | .error e => .error e
      | .ok st1 => iterState (fun i => snap (i + 1)) st1 n := by
  intro n
  induction n with
  | zero => cases h : stepState (snap 0) st <;> simp [iterState, h]
  | succ n ih =>
    show (match iterState snap st (n + 1) with
          | .error e => (.error e : Except String LoopState)
          | .ok st' => stepState (snap (n + 1)) st') = _
    rw [ih]
    cases h : stepState (snap 0) st with
    | error e => rfl
    | ok st1 =>
      show (match iterState (fun i => snap (i + 1)) st1 n with
            | .error e => (.error e : Except String LoopState)
            | .ok st' => stepState (snap (n + 1)) st') =
        iterState (fun i => snap (i + 1)) st1 (n + 1)
      rfl

theorem roundLoop_shift (snap : Nat → List Row) (maxStale : Nat) :
    ∀ fuel t st, roundLoop snap maxStale fuel (t + 1) st =
      roundLoop (fun i => snap (i + 1)) maxStale fuel t st := by
  intro fuel
  induction fuel with
  | zero => intro t st; rfl
  | succ fuel ih =>
    intro t st
    cases h : stepState (snap (t + 1)) st with
    | error e =>
      rw [roundLoop_succ_err snap maxStale fuel (t + 1) st e h,
        roundLoop_succ_err (fun i => snap (i + 1)) maxStale fuel t st e h]
    | ok st' =>
      rw [roundLoop_succ_ok snap maxStale fuel (t + 1) st st' h,
        roundLoop_succ_ok (fun i => snap (i + 1)) maxStale fuel t st st' h,
        ih (t + 1) st']

theorem iterState_maxIdx (snap : Nat → List Row) (st : LoopState) :
    ∀ (n : Nat) (st' : LoopState), iterState snap st n = .ok st' →
      maxIdx st.seen = some st.lastMaxIdx →
      maxIdx st'.seen = some st'.lastMaxIdx := by
  intro n
  induction n with
  | zero =>
    intro st' h h0
    cases h
    exact h0
  | succ n ih =>
    intro st' h h0
    rw [show iterState snap st (n + 1) =
        (match iterState snap st n with
         | .error e => (.error e : Except String LoopState)
         | .ok st'' => stepState (snap n) st'') from rfl] at h
    cases hn : iterState snap st n with
    | error e => rw [hn] at h; cases h
    | ok st'' =>
      rw [hn] at h
      obtain ⟨_, m, hmi, rfl⟩ := stepState_ok_inv (snap n) st'' st' h
      exact hmi

theorem roundLoop_run_all (maxStale : Nat) :
    ∀ (fuel : Nat) (snap : Nat → List Row) (st : LoopState),
      (∀ t < fuel, ∃ stt, iterState snap st (t + 1) = .ok stt ∧ stt.staleRounds < maxStale) →
      ∃ stF, iterState snap st fuel = .ok stF ∧
        roundLoop snap maxStale fuel 0 st = .ok stF.seen := by
  intro fuel
  induction fuel with
  | zero => intro snap st _; exact ⟨st, rfl, rfl⟩
  | succ fuel ih =>
    intro snap st h
    obtain ⟨st1, h1, hs1⟩ := h 0 (by omega)
    have hstep : stepState (snap 0) st = .ok st1 := by
      rw [iterState_succ_front snap st 0] at h1
      cases hs : stepState (snap 0) st with
      | error e => rw [hs] at h1; cases h1
      | ok s =>
        rw [hs] at h1
        cases h1
        rfl
    have hloop := roundLoop_succ_ok snap maxStale fuel 0 st st1 hstep
    rw [if_neg (by omega : ¬ maxStale ≤ st1.staleRounds)] at hloop
    rw [roundLoop_shift snap maxStale fuel 0 st1] at hloop
    obtain ⟨stF, hF, hR⟩ := ih (fun i => snap (i + 1)) st1 (by
      intro t ht
      obtain ⟨stt, hh, hs⟩ := h (t + 1) (by omega)
      rw [iterState_succ_front snap st (t + 1), hstep] at hh
      exact ⟨stt, hh, hs⟩)
    refine ⟨stF, ?_, by rw [hloop]; exact hR⟩
    rw [iterState_succ_front snap st fuel, hstep]
    exact hF

theorem mapOpt_isSome_iff {α β : Type} (f : α → Option β) :
    ∀ l : List α, (mapOpt f l).isSome ↔ ∀ a ∈ l, (f a).isSome := by
  intro l
  induction l with
  | nil => simp [mapOpt]
  | cons a as ih =>
    cases hfa : f a with
    | none => simp [mapOpt, hfa]
    | some b => simp [mapOpt, hfa, ih]

theorem maxIdx_isSome_iff (s : List (String × String)) :
    (maxIdx s).isSome ↔ (parseKeys s).isSome := by
  unfold maxIdx
  cases h : parseKeys s with
  | none => simp
  | some l => cases l <;> simp

theorem sortKeysNum_isSome (s : List (String × String))
    (h : (parseKeys s).isSome) : (sortKeysNum (s.map Prod.fst)).isSome := by
  unfold sortKeysNum
  rw [Option.isSome_map']
  unfold keyVals
  rw [mapOpt_isSome_iff]
  intro k hk
  obtain ⟨kv, hkv, rfl⟩ := List.mem_map.mp hk
  have := (mapOpt_isSome_iff _ s).mp h kv hkv
  simpa [Option.isSome_map'] using this

theorem mergeDocument_ok_of (s : List (String × String))
    (h : (parseKeys s).isSome) : ∃ doc, mergeDocument s = .ok doc := by
  obtain ⟨ks, hks⟩ := Option.isSome_iff_exists.mp (sortKeysNum_isSome s h)
  exact ⟨_, by unfold mergeDocument; rw [hks]⟩

/-- C3: when the stagnation stop never fires — after each of the `maxRounds`
rounds the stagnation counter is still below `maxStale` — the round loop of
the keyed collector runs all `maxRounds` rounds (its result is the state of
the full `maxRounds`-step trace) and terminates normally: `scrape` returns a
merged document, not an error. -/
theorem C3_round_cap_termination
    (initRows : List Row) (snap : Nat → List Row) (cookie : Except String Unit)
    (totalParse : Except String Nat) (maxStale maxRounds : Nat) (st0 : LoopState)
    (h0 : initSt initRows = .ok st0)
    (hprog : ∀ t < maxRounds,
      ∃ stt, iterState snap st0 (t + 1) = .ok stt ∧ stt.staleRounds < maxStale) :
    ∃ stF doc, iterState snap st0 maxRounds = .ok stF ∧
      roundLoop snap maxStale maxRounds 0 st0 = .ok stF.seen ∧
      scrapeJJ initRows snap cookie totalParse maxStale maxRounds = .ok doc := by
  obtain ⟨stF, hF, hR⟩ := roundLoop_run_all maxStale maxRounds snap st0 hprog
  have hinv0 : maxIdx st0.seen = some st0.lastMaxIdx := by
    obtain ⟨m, hmi, rfl⟩ := initSt_ok_inv initRows st0 h0
    exact hmi
  have hinvF : maxIdx stF.seen = some stF.lastMaxIdx :=
    iterState_maxIdx snap st0 maxRounds stF hF hinv0
  have hparse : (parseKeys stF.seen).isSome := by
    rw [← maxIdx_isSome_iff, hinvF]
    rfl
  obtain ⟨doc, hdoc⟩ := mergeDocument_ok_of stF.seen hparse
  exact ⟨stF, doc, hF, hR, by
    rw [scrapeJJ_eq_ok initRows snap cookie totalParse maxStale maxRounds st0 stF.seen h0 hR]
    exact hdoc⟩

/-- Concrete instance of C3: two rounds, each adding a fresh key, with
`maxRounds = 2`; the loop runs both rounds and the scrape merges all three
items in numeric key order. -/
theorem C3_round_cap_termination_witness :
    ∃ stF doc,
      iterState (fun t => if t = 0 then [(some "1", "B")] else [(some "2", "C")])
        ⟨[("0", "A")], 0, 1, 0⟩ 2 = .ok stF ∧
      roundLoop (fun t => if t = 0 then [(some "1", "B")] else [(some "2", "C")])
        5 2 0 ⟨[("0", "A")], 0, 1, 0⟩ = .ok stF.seen ∧
      scrapeJJ [(some "0", "A")]
        (fun t => if t = 0 then [(some "1", "B")] else [(some "2", "C")])
        (.ok ()) (.ok 3) 5 2 = .ok doc :=
  C3_round_cap_termination [(some "0", "A")]
    (fun t => if t = 0 then [(some "1", "B")] else [(some "2", "C")])
    (.ok ()) (.ok 3) 5 2 ⟨[("0", "A")], 0, 1, 0⟩ (by decide)
    (by
      intro t ht
      match t, ht with
      | 0, _ => exact ⟨⟨[("0", "A"), ("1", "B")], 0, 2, 1⟩, by decide, by decide⟩
      | 1, _ => exact ⟨⟨[("0", "A"), ("1", "B"), ("2", "C")], 0, 3, 2⟩, by decide, by decide⟩)

/-! ### The numeric sort of the merged keys -/

theorem insertKeyNum_perm (p : String × Int) :
    ∀ l, (insertKeyNum l p).Perm (p :: l) := by
  intro l
  induction l with
  | nil => exact List.Perm.refl _
  | cons q qs ih =>
    by_cases h : p.2 < q.2
    · rw [insertKeyNum, if_pos h]
    · rw [insertKeyNum, if_neg h]
      exact (List.Perm.cons q ih).trans (List.Perm.swap p q qs)

theorem foldl_insertKeyNum_perm :
    ∀ ps acc : List (String × Int), (ps.foldl insertKeyNum acc).Perm (acc ++ ps) := by
  intro ps
  induction ps with
  | nil => intro acc; simp
  | cons p ps ih =>
    intro acc
    rw [List.foldl_cons]
    refine (ih (insertKeyNum acc p)).trans ?_
    have h1 : (insertKeyNum acc p ++ ps).Perm ((p :: acc) ++ ps) :=
      (insertKeyNum_perm p acc).append_right ps
    exact h1.trans List.perm_middle.symm

theorem pairwise_insertKeyNum (p : String × Int) :
    ∀ l, l.Pairwise (fun a b => a.2 ≤ b.2) →
      (insertKeyNum l p).Pairwise (fun a b => a.2 ≤ b.2) := by
  intro l
  induction l with
  | nil => intro _; simp [insertKeyNum]
  | cons q qs ih =>
    intro h
    rw [List.pairwise_cons] at h
    obtain ⟨hq, hqs⟩ := h
    by_cases hlt : p.2 < q.2
    · rw [insertKeyNum, if_pos hlt]
      refine List.Pairwise.cons ?_ (List.Pairwise.cons hq hqs)
      intro x hx
      rcases List.mem_cons.mp hx with rfl | hx
      · exact le_of_lt hlt
      · exact le_trans (le_of_lt hlt) (hq x hx)
    · rw [insertKeyNum, if_neg hlt]
      refine List.Pairwise.cons ?_ (ih hqs)
      intro x hx
      have hx' : x ∈ p :: qs := (insertKeyNum_perm p qs).mem_iff.mp hx
      rcases List.mem_cons.mp hx' with rfl | hx'
      · exact not_lt.mp hlt
      · exact hq x hx'

theorem pairwise_foldl_insertKeyNum :
    ∀ ps acc : List (String × Int), acc.Pairwise (fun a b => a.2 ≤ b.2) →
      (ps.foldl insertKeyNum acc).Pairwise (fun a b => a.2 ≤ b.2) := by
  intro ps
  induction ps with
  | nil => intro acc h; simpa using h
  | cons p ps ih =>
    intro acc h
    rw [List.foldl_cons]
    exact ih _ (pairwise_insertKeyNum p acc h)

theorem keyVals_some :
    ∀ (keys : List String) (ps : List (String × Int)), keyVals keys = some ps →
      ps.map Prod.fst = keys ∧ ∀ p ∈ ps, parseInt p.1 = some p.2 := by
  intro keys
  induction keys with
  | nil =>
    intro ps h
    cases h
    simp
  | cons k ks ih =>
    intro ps h
    unfold keyVals mapOpt at h
    cases hk : parseInt k with
    | none => rw [hk] at h; cases h
    | some v =>
      rw [hk] at h
      simp only [Option.map_some', Option.some_bind] at h
      cases hm : mapOpt (fun k => (parseInt k).map (fun v => (k, v))) ks with
      | none => rw [hm] at h; cases h
      | some qs =>
        rw [hm] at h
        simp only [Option.map_some', Option.some.injEq] at h
        subst h
        obtain ⟨h1, h2⟩ := ih qs hm
        refine ⟨by simp [h1], ?_⟩
        intro p hp
        rcases List.mem_cons.mp hp with rfl | hp
        · exact hk
        · exact h2 p hp

theorem sortKeysNum_sorts (keys ks : List String) (h : sortKeysNum keys = some ks) :
    ks.Perm keys ∧
    ks.Pairwise (fun a b =>
      ∃ va vb, parseInt a = some va ∧ parseInt b = some vb ∧ va ≤ vb) := by
  unfold sortKeysNum at h
  cases hkv : keyVals keys with
  | none => rw [hkv] at h; cases h
  | some ps =>
    rw [hkv] at h
    simp only [Option.map_some', Option.some.injEq] at h
    subst h
    obtain ⟨hfst, hvals⟩ := keyVals_some keys ps hkv
    have hperm : (ps.foldl insertKeyNum []).Perm ps := by
      simpa using foldl_insertKeyNum_perm ps []
    constructor
    · rw [← hfst]
      exact hperm.map Prod.fst
    · have hpw : (ps.foldl insertKeyNum []).Pairwise (fun a b => a.2 ≤ b.2) :=
        pairwise_foldl_insertKeyNum ps [] (by simp)
      rw [List.pairwise_map]
      refine hpw.imp_of_mem ?_
      intro a b ha hb hab
      exact ⟨a.2, b.2, hvals a (hperm.mem_iff.mp ha), hvals b (hperm.mem_iff.mp hb), hab⟩

/-- C4: on loop exit the keyed collector sorts the collected keys by their
integer value: whenever the sort succeeds, it returns a permutation of the
keys that is ascending under `int(·)`; in particular for the key set
`{"10","2","1"}` the merged document concatenates the items in the order
1, 2, 10 — numeric, not lexicographic. -/
theorem C4_numeric_order :
    (∀ keys ks : List String, sortKeysNum keys = some ks →
      ks.Perm keys ∧
      ks.Pairwise (fun a b =>
        ∃ va vb, parseInt a = some va ∧ parseInt b = some vb ∧ va ≤ vb))
    ∧ mergeDocument [("10", "A"), ("2", "B"), ("1", "C")] = .ok "<ul>CBA</ul>" := by
  constructor
  · exact sortKeysNum_sorts
  · decide

/-- Concrete instance of C4: the spec's example key set `{"10","2","1"}`
sorts to `1, 2, 10`. -/
theorem C4_numeric_order_witness :
    sortKeysNum ["10", "2", "1"] = some ["1", "2", "10"] ∧
    (["1", "2", "10"] : List String).Perm ["10", "2", "1"] ∧
    (["1", "2", "10"] : List String).Pairwise (fun a b =>
      ∃ va vb, parseInt a = some va ∧ parseInt b = some vb ∧ va ≤ vb) :=
  ⟨by decide, (C4_numeric_order.1 ["10", "2", "1"] ["1", "2", "10"] (by decide)).1,
    (C4_numeric_order.1 ["10", "2", "1"] ["1", "2", "10"] (by decide)).2⟩

/-! ### The paginated collector -/

theorem scrapePracuj_def (env : Nat → PageState) (cookie popup : Except String Unit)
    (totalParse : Except String Nat) (maxRounds : Nat) :
    scrapePracuj env cookie popup totalParse maxRounds =
      match pagedLoop env maxRounds 0 [] with
      | .error e => .error e
      | .ok offers => .ok ("<div>" ++ String.join offers ++ "</div>") := rfl

theorem pagedLoop_wait_fail (env : Nat → PageState) (fuel t : Nat) (acc : List String)
    (hs : (env t).sectionPresent = false) :
    pagedLoop env (fuel + 1) t acc = .error timeoutMsg := by
  rw [pagedLoop, if_pos hs]

theorem pagedLoop_step (env : Nat → PageState) (fuel t : Nat) (acc : List String)
    (hs : (env t).sectionPresent = true) :
    pagedLoop env (fuel + 1) t acc =
      if (env t).nextVisible = false then .ok (acc ++ (env t).offerDivs)
      else if (env t).nextClickable = false then .error timeoutMsg
      else pagedLoop env fuel (t + 1) (acc ++ (env t).offerDivs) := by
  rw [pagedLoop, if_neg (by simp [hs])]

theorem pagedLoop_run (env : Nat → PageState) :
    ∀ (q fuel t : Nat) (acc : List String),
      q + 1 ≤ fuel →
      (∀ j, j ≤ q → (env (t + j)).sectionPresent = true) →
      (∀ j, j < q → (env (t + j)).nextVisible = true ∧ (env (t + j)).nextClickable = true) →
      (env (t + q)).nextVisible = false →
      pagedLoop env fuel t acc =
        .ok (acc ++ ((List.range (q + 1)).map (fun j => (env (t + j)).offerDivs)).flatten) := by
  intro q
  induction q with
  | zero =>
    intro fuel t acc hfuel hsec _ hstop
    obtain ⟨fuel', rfl⟩ : ∃ f, fuel = f + 1 := ⟨fuel - 1, by omega⟩
    have hs := hsec 0 (by omega)
    rw [Nat.add_zero] at hs
    rw [Nat.add_zero] at hstop
    rw [pagedLoop_step env fuel' t acc hs, if_pos hstop]
    simp [List.range_succ]
  | succ q ih =>
    intro fuel t acc hfuel hsec hnext hstop
    obtain ⟨fuel', rfl⟩ : ∃ f, fuel = f + 1 := ⟨fuel - 1, by omega⟩
    have hs := hsec 0 (by omega)
    rw [Nat.add_zero] at hs
    have hn := hnext 0 (by omega)
    rw [Nat.add_zero] at hn
    rw [pagedLoop_step env fuel' t acc hs,
        if_neg (by rw [hn.1]; simp),
        if_neg (by rw [hn.2]; simp)]
    rw [ih fuel' (t + 1) (acc ++ (env t).offerDivs) (by omega)
      (fun j hj => by
        have := hsec (j + 1) (by omega)
        rwa [show t + (j + 1) = t + 1 + j from by omega] at this)
      (fun j hj => by
        have := hnext (j + 1) (by omega)
        rwa [show t + (j + 1) = t + 1 + j from by omega] at this)
      (by
        rwa [show t + (q + 1) = t + 1 + q from by omega] at hstop)]
    rw [List.append_assoc]
    congr 1
    conv_rhs => rw [List.range_succ_eq_map, List.map_cons, List.flatten_cons,
      List.map_map, Nat.add_zero]
    have hmap : (List.range (q + 1)).map (fun j => (env (t + 1 + j)).offerDivs) =
        (List.range (q + 1)).map ((fun j => (env (t + j)).offerDivs) ∘ Nat.succ) :=
      List.map_congr_left (fun j _ => by
        show (env (t + 1 + j)).offerDivs = (env (t + (j + 1))).offerDivs
        rw [show t + 1 + j = t + (j + 1) from by omega])
    rw [hmap]

/-- C5: when the next-page control stops being displayed after page `p`
(visible with a clickable button on the first `p - 1` pages, invisible on page
`p`, the offer section present throughout) and `p ≤ maxRounds`, the paginated
collector's loop runs exactly `p` iterations and returns the per-page item
blocks concatenated in page-then-DOM order inside a single `<div>` wrapper;
the number of collected blocks is the sum of the per-page counts. -/
theorem C5_paginated_disjoint_append
    (env : Nat → PageState) (cookie popup : Except String Unit)
    (totalParse : Except String Nat) (maxRounds p : Nat)
    (hp : 1 ≤ p) (hpm : p ≤ maxRounds)
    (hsec : ∀ t < p, (env t).sectionPresent = true)
    (hnext : ∀ t, t + 1 < p → (env t).nextVisible = true ∧ (env t).nextClickable = true)
    (hstop : (env (p - 1)).nextVisible = false) :
    scrapePracuj env cookie popup totalParse maxRounds =
      .ok ("<div>" ++
        String.join (((List.range p).map (fun t => (env t).offerDivs)).flatten) ++ "</div>")
    ∧ (((List.range p).map (fun t => (env t).offerDivs)).flatten).length
        = ((List.range p).map (fun t => (env t).offerDivs.length)).sum := by
  obtain ⟨q, rfl⟩ : ∃ q, p = q + 1 := ⟨p - 1, by omega⟩
  have hrun := pagedLoop_run env q maxRounds 0 [] (by omega)
    (fun j hj => by have := hsec j (by omega); simpa using this)
    (fun j hj => by have := hnext j (by omega); simpa using this)
    (by have := hstop; simpa using this)
  constructor
  · rw [scrapePracuj_def, hrun]
    have hz : (List.range (q + 1)).map (fun j => (env (0 + j)).offerDivs) =
        (List.range (q + 1)).map (fun t => (env t).offerDivs) :=
      List.map_congr_left (fun j _ => by rw [Nat.zero_add])
    rw [hz]
    rfl
  · rw [List.length_flatten, List.map_map]
    rfl

/-- Concrete instance of C5: two pages of 2 and 1 items, the next button
invisible on the second page; the loop stops after two iterations with all
three blocks in page order. -/
theorem C5_paginated_disjoint_append_witness :
    scrapePracuj
      (fun t => if t = 0 then ⟨true, ["a1", "a2"], true, true⟩
                else if t = 1 then ⟨true, ["b1"], false, false⟩
                else ⟨false, [], false, false⟩)
      (.ok ()) (.ok ()) (.ok 3) 400 =
      .ok ("<div>" ++
        String.join (((List.range 2).map (fun t =>
          ((fun t => if t = 0 then (⟨true, ["a1", "a2"], true, true⟩ : PageState)
                     else if t = 1 then ⟨true, ["b1"], false, false⟩
                     else ⟨false, [], false, false⟩) t).offerDivs)).flatten) ++ "</div>")
    ∧ (((List.range 2).map (fun t =>
          ((fun t => if t = 0 then (⟨true, ["a1", "a2"], true, true⟩ : PageState)
                     else if t = 1 then ⟨true, ["b1"], false, false⟩
                     else ⟨false, [], false, false⟩) t).offerDivs)).flatten).length
        = ((List.range 2).map (fun t =>
          ((fun t => if t = 0 then (⟨true, ["a1", "a2"], true, true⟩ : PageState)
                     else if t = 1 then ⟨true, ["b1"], false, false⟩
                     else ⟨false, [], false, false⟩) t).offerDivs.length)).sum :=
  C5_paginated_disjoint_append
    (fun t => if t = 0 then ⟨true, ["a1", "a2"], true, true⟩
              else if t = 1 then ⟨true, ["b1"], false, false⟩
              else ⟨false, [], false, false⟩)
    (.ok ()) (.ok ()) (.ok 3) 400 2 (by decide) (by decide)
    (by decide)
    (by intro t ht; have h0 : t = 0 := by omega
        subst h0; exact ⟨rfl, rfl⟩)
    (by decide)

/-! ### Empty-listing behaviour -/

/-- Counterexample to C6: with the default tunables (`max_stale_rounds = 5`,
`max_rounds = 400`) the keyed collector run against a site that never presents
a listing item (empty initial snapshot, every round's snapshot empty) does not
return an empty wrapper — the structural wait
`wait.until(presence_of_element_located(... li[data-index]))` at the top of
the first round times out and the exception propagates out of `scrape`. -/
theorem C6_counterexample_keyed_empty_raises :
    scrapeJJ [] (fun _ => []) (.ok ()) (.ok 0) 5 400 = .error timeoutMsg := by decide

/-- C6 as amended: the paginated collector indeed completes normally on a
no-items page (section present, no child divs, no next button), returning the
empty wrapper `<div></div>`; the keyed collector returns the empty wrapper
`<ul></ul>` only when `maxRounds = 0` — with `maxRounds ≥ 1` and no item node
ever present, its first-round structural wait fails and `scrape` raises
instead of returning. -/
theorem C6_empty_listing_amended :
    (∀ (env : Nat → PageState) (cookie popup : Except String Unit)
       (totalParse : Except String Nat) (maxRounds : Nat),
      1 ≤ maxRounds →
      (env 0).sectionPresent = true → (env 0).offerDivs = [] →
      (env 0).nextVisible = false →
      scrapePracuj env cookie popup totalParse maxRounds = .ok ("<div>" ++ "</div>"))
    ∧
    (∀ (snap : Nat → List Row) (cookie : Except String Unit)
       (totalParse : Except String Nat) (maxStale maxRounds : Nat),
      1 ≤ maxRounds → snap 0 = [] →
      scrapeJJ [] snap cookie totalParse maxStale maxRounds = .error timeoutMsg)
    ∧
    (∀ (snap : Nat → List Row) (cookie : Except String Unit)
       (totalParse : Except String Nat) (maxStale : Nat),
      scrapeJJ [] snap cookie totalParse maxStale 0 = .ok ("<ul>" ++ "</ul>")) := by
  refine ⟨?_, ?_, ?_⟩
  · intro env cookie popup totalParse maxRounds hmr hs hd hv
    obtain ⟨fuel, rfl⟩ : ∃ f, maxRounds = f + 1 := ⟨maxRounds - 1, by omega⟩
    rw [scrapePracuj_def, pagedLoop_step env fuel 0 [] hs, if_pos hv, hd]
    decide
  · intro snap cookie totalParse maxStale maxRounds hmr hsnap
    obtain ⟨fuel, rfl⟩ : ∃ f, maxRounds = f + 1 := ⟨maxRounds - 1, by omega⟩
    have h0 : initSt [] = .ok ⟨[], 0, 0, -1⟩ := by decide
    refine scrapeJJ_eq_err_loop [] snap cookie totalParse maxStale (fuel + 1)
      ⟨[], 0, 0, -1⟩ timeoutMsg h0 ?_
    exact roundLoop_succ_err snap maxStale fuel 0 _ timeoutMsg
      (by rw [hsnap]; exact stepState_empty _)
  · intro snap cookie totalParse maxStale
    have h0 : initSt [] = .ok ⟨[], 0, 0, -1⟩ := by decide
    rw [scrapeJJ_eq_ok [] snap cookie totalParse maxStale 0 ⟨[], 0, 0, -1⟩ [] h0 rfl]
    decide

/-- Concrete instance of the amended C6: a present-but-empty offers page makes
the paginated collector return `<div></div>`, while the keyed collector with
one round available and an empty snapshot raises. -/
theorem C6_empty_listing_amended_witness :
    scrapePracuj (fun _ => ⟨true, [], false, false⟩) (.ok ()) (.ok ()) (.error "no header")
        400 = .ok ("<div>" ++ "</div>")
    ∧ scrapeJJ [] (fun _ => []) (.ok ()) (.error "no header") 5 1 = .error timeoutMsg :=
  ⟨C6_empty_listing_amended.1 (fun _ => ⟨true, [], false, false⟩) (.ok ()) (.ok ())
      (.error "no header") 400 (by decide) rfl rfl rfl,
    C6_empty_listing_amended.2.1 (fun _ => []) (.ok ()) (.error "no header") 5 1
      (by decide) rfl⟩

/-! ### Advisory failures and non-empty output -/

theorem roundLoop_seen_extends (snap : Nat → List Row) (maxStale : Nat) :
    ∀ (fuel t : Nat) (st : LoopState) (s : List (String × String)),
      roundLoop snap maxStale fuel t st = .ok s → ∃ l, s = st.seen ++ l := by
  intro fuel
  induction fuel with
  | zero =>
    intro t st s h
    cases h
    exact ⟨[], by simp⟩
  | succ fuel ih =>
    intro t st s h
    cases hs : stepState (snap t) st with
    | error e => rw [roundLoop_succ_err snap maxStale fuel t st e hs] at h; cases h
    | ok st' =>
      rw [roundLoop_succ_ok snap maxStale fuel t st st' hs] at h
      obtain ⟨hne, m, hmi, hst'⟩ := stepState_ok_inv (snap t) st st' hs
      have hseen : st'.seen = collect_visible_items (snap t) st.seen := by rw [hst']
      obtain ⟨l0, hl0⟩ := collect_append (snap t) st.seen
      by_cases hstop : maxStale ≤ st'.staleRounds
      · rw [if_pos hstop] at h
        cases h
        exact ⟨l0, by rw [hseen, hl0]⟩
      · rw [if_neg hstop] at h
        obtain ⟨l1, hl1⟩ := ih (t + 1) st' s h
        exact ⟨l0 ++ l1, by rw [hl1, hseen, hl0, List.append_assoc]⟩

theorem roundLoop_mem (snap : Nat → List Row) (maxStale : Nat) :
    ∀ (fuel t : Nat) (st : LoopState) (s : List (String × String)),
      roundLoop snap maxStale fuel t st = .ok s →
      ∀ kv ∈ s, kv ∈ st.seen ∨ ∃ u r, r ∈ snap u ∧ r.1 = some kv.1 ∧ r.2 = kv.2 := by
  intro fuel
  induction fuel with
  | zero =>
    intro t st s h kv hkv
    cases h
    exact Or.inl hkv
  | succ fuel ih =>
    intro t st s h kv hkv
    cases hs : stepState (snap t) st with
    | error e => rw [roundLoop_succ_err snap maxStale fuel t st e hs] at h; cases h
    | ok st' =>
      rw [roundLoop_succ_ok snap maxStale fuel t st st' hs] at h
      obtain ⟨hne, m, hmi, hst'⟩ := stepState_ok_inv (snap t) st st' hs
      have hseen : st'.seen = collect_visible_items (snap t) st.seen := by rw [hst']
      have step_case : ∀ kv', kv' ∈ st'.seen →
          kv' ∈ st.seen ∨ ∃ u r, r ∈ snap u ∧ r.1 = some kv'.1 ∧ r.2 = kv'.2 := by
        intro kv' hkv'
        rw [hseen] at hkv'
        rcases mem_foldl_insertRow (snap t) st.seen kv' hkv' with h1 | ⟨r, hr, h2, h3⟩
        · exact Or.inl h1
        · exact Or.inr ⟨t, r, hr, h2, h3⟩
      by_cases hstop : maxStale ≤ st'.staleRounds
      · rw [if_pos hstop] at h
        cases h
        exact step_case kv hkv
      · rw [if_neg hstop] at h
        rcases ih (t + 1) st' s h kv hkv with h1 | h1
        · exact step_case kv h1
        · exact Or.inr h1

theorem strLength_pos (s : String) (h : s ≠ "") : 0 < s.length := by
  cases s with
  | mk data =>
    cases data with
    | nil => exact absurd rfl h
    | cons c cs => simp [String.length]

theorem foldl_strAppend_length_ge (l : List String) :
    ∀ a : String, a.length ≤ (l.foldl (· ++ ·) a).length := by
  induction l with
  | nil => intro a; exact le_refl _
  | cons x xs ih =>
    intro a
    refine le_trans ?_ (ih (a ++ x))
    rw [String.length_append]
    omega

theorem join_cons_length_ge (x : String) (l : List String) :
    x.length ≤ (String.join (x :: l)).length := by
  show x.length ≤ ((x :: l).foldl (· ++ ·) "").length
  refine le_trans ?_ (foldl_strAppend_length_ge l ("" ++ x))
  rw [String.length_append]
  simp

theorem mergeDocument_ne_empty (s : List (String × String)) (doc : String)
    (hm : mergeDocument s = .ok doc) (hne : s ≠ [])
    (hval : ∀ kv ∈ s, kv.2 ≠ "") : doc ≠ "<ul>" ++ "</ul>" := by
  unfold mergeDocument at hm
  cases hks : sortKeysNum (s.map Prod.fst) with
  | none => rw [hks] at hm; cases hm
  | some ks =>
    rw [hks] at hm
    have hdoc : doc =
        "<ul>" ++ String.join (ks.map (fun k => (lookupKey k s).getD "")) ++ "</ul>" :=
      ((Except.ok.injEq _ _).mp hm).symm
    obtain ⟨hperm, _⟩ := sortKeysNum_sorts (s.map Prod.fst) ks hks
    cases hks0 : ks with
    | nil =>
      subst hks0
      have : s.map Prod.fst = [] := hperm.symm.eq_nil
      exact absurd (List.map_eq_nil_iff.mp this) hne
    | cons k ks' =>
      subst hks0
      have hkmem : k ∈ s.map Prod.fst := hperm.subset (List.mem_cons_self _ _)
      obtain ⟨v, hv⟩ := Option.isSome_iff_exists.mp ((lookupKey_isSome_iff k s).mpr hkmem)
      have hvne : v ≠ "" := hval (k, v) (lookupKey_mem hv)
      have hjoin : v.length ≤
          (String.join ((k :: ks').map (fun k => (lookupKey k s).getD ""))).length := by
        simp only [List.map_cons, hv, Option.getD_some]
        exact join_cons_length_ge v _
      intro hcontra
      rw [hdoc] at hcontra
      have hlen := congrArg String.length hcontra
      rw [String.length_append, String.length_append, String.length_append] at hlen
      have hv1 : 0 < v.length := strLength_pos v hvne
      omega

/-- C7: the advisory steps never influence the collected result: both
collectors return the same value whatever the cookie-banner, popup, or
total-offers-parse outcome was (those exceptions are caught inside the
helpers and only logged); consequently, if the total-count parse throws, a
keyed scrape that succeeded with a parsed total still succeeds with the very
same document, and that document is not the empty wrapper whenever the
initial snapshot contributed at least one item and every observed item has
non-empty markup. -/
theorem C7_advisory_failures_harmless :
    (∀ (initRows : List Row) (snap : Nat → List Row)
       (cookie cookie' : Except String Unit) (tp tp' : Except String Nat)
       (maxStale maxRounds : Nat),
      scrapeJJ initRows snap cookie tp maxStale maxRounds =
        scrapeJJ initRows snap cookie' tp' maxStale maxRounds)
    ∧
    (∀ (env : Nat → PageState) (cookie cookie' popup popup' : Except String Unit)
       (tp tp' : Except String Nat) (maxRounds : Nat),
      scrapePracuj env cookie popup tp maxRounds =
        scrapePracuj env cookie' popup' tp' maxRounds)
    ∧
    (∀ (initRows : List Row) (snap : Nat → List Row) (cookie : Except String Unit)
       (n : Nat) (e : String) (maxStale maxRounds : Nat) (doc : String),
      scrapeJJ initRows snap cookie (.ok n) maxStale maxRounds = .ok doc →
      scrapeJJ initRows snap cookie (.error e) maxStale maxRounds = .ok doc)
    ∧
    (∀ (initRows : List Row) (snap : Nat → List Row) (cookie : Except String Unit)
       (e : String) (maxStale maxRounds : Nat) (doc : String),
      (∀ r ∈ initRows, r.2 ≠ "") →
      (∀ u : Nat, ∀ r ∈ snap u, r.2 ≠ "") →
      collect_visible_items initRows [] ≠ [] →
      scrapeJJ initRows snap cookie (.error e) maxStale maxRounds = .ok doc →
      doc ≠ "<ul>" ++ "</ul>") := by
  refine ⟨fun _ _ _ _ _ _ _ _ => rfl, fun _ _ _ _ _ _ _ _ => rfl,
    fun _ _ _ _ _ _ _ _ h => h, ?_⟩
  intro initRows snap cookie e maxStale maxRounds doc hinit hsnap hne h
  cases h0 : initSt initRows with
  | error e' =>
    rw [scrapeJJ_eq_err_init initRows snap cookie (.error e) maxStale maxRounds e' h0] at h
    cases h
  | ok st0 =>
    cases hr : roundLoop snap maxStale maxRounds 0 st0 with
    | error e' =>
      rw [scrapeJJ_eq_err_loop initRows snap cookie (.error e) maxStale maxRounds
        st0 e' h0 hr] at h
      cases h
    | ok s =>
      rw [scrapeJJ_eq_ok initRows snap cookie (.error e) maxStale maxRounds st0 s h0 hr] at h
      obtain ⟨m, hmi, hst0⟩ := initSt_ok_inv initRows st0 h0
      have hseen0 : st0.seen = collect_visible_items initRows [] := by rw [hst0]
      have hsne : s ≠ [] := by
        obtain ⟨l, hl⟩ := roundLoop_seen_extends snap maxStale maxRounds 0 st0 s hr
        rw [hl, hseen0]
        intro hc
        exact hne (List.append_eq_nil.mp hc).1
      refine mergeDocument_ne_empty s doc h hsne ?_
      intro kv hkv
      rcases roundLoop_mem snap maxStale maxRounds 0 st0 s hr kv hkv with h1 | ⟨u, r, hru, _, h3⟩
      · rw [hseen0] at h1
        rcases mem_foldl_insertRow initRows [] kv h1 with h2 | ⟨r, hr2, _, h3⟩
        · cases h2
        · rw [← h3]
          exact hinit r hr2
      · rw [← h3]
        exact hsnap u r hru

/-- Concrete instance of C7: with `maxRounds = 0` (no waits involved), a
failed total-count parse still yields the one-item document, which is not the
empty wrapper. -/
theorem C7_advisory_failures_harmless_witness :
    scrapeJJ [(some "0", "A")] (fun _ => []) (.ok ()) (.error "boom") 5 0 = .ok "<ul>A</ul>"
    ∧ ("<ul>A</ul>" : String) ≠ "<ul>" ++ "</ul>" :=
  ⟨by decide,
    C7_advisory_failures_harmless.2.2.2 [(some "0", "A")] (fun _ => []) (.ok ()) "boom" 5 0
      "<ul>A</ul>" (by decide) (fun u r hr => absurd hr (List.not_mem_nil r)) (by decide)
      (by decide)⟩

/-! ### Structural wait failures and persistence -/

/-- C8: a structural wait failure aborts the collection and nothing is
persisted: (1) when the selected collector raises, `DataScraper.scrape`
re-raises and the filesystem is unchanged — the output path is only built and
written after a successful return, as (2) shows for the success case; (3) the
paginated collector propagates a timeout of the wait for the offer-list
container; (4) so does the keyed collector for its per-round item wait. -/
theorem C8_structural_wait_propagates :
    (∀ (e filepath : String) (fs : FileSystem),
      dataScraperScrape (.error e) filepath fs = (.error e, fs))
    ∧
    (∀ (doc filepath : String) (fs : FileSystem),
      dataScraperScrape (.ok doc) filepath fs = (.ok doc, writeFile fs filepath doc))
    ∧
    (∀ (env : Nat → PageState) (cookie popup : Except String Unit)
       (tp : Except String Nat) (maxRounds : Nat),
      1 ≤ maxRounds → (env 0).sectionPresent = false →
      scrapePracuj env cookie popup tp maxRounds = .error timeoutMsg)
    ∧
    (∀ (initRows : List Row) (snap : Nat → List Row) (cookie : Except String Unit)
       (tp : Except String Nat) (maxStale maxRounds : Nat) (st0 : LoopState),
      1 ≤ maxRounds → snap 0 = [] → initSt initRows = .ok st0 →
      scrapeJJ initRows snap cookie tp maxStale maxRounds = .error timeoutMsg) := by
  refine ⟨fun _ _ _ => rfl, fun _ _ _ => rfl, ?_, ?_⟩
  · intro env cookie popup tp maxRounds hmr hs
    obtain ⟨fuel, rfl⟩ : ∃ f, maxRounds = f + 1 := ⟨maxRounds - 1, by omega⟩
    rw [scrapePracuj_def, pagedLoop_wait_fail env fuel 0 [] hs]
  · intro initRows snap cookie tp maxStale maxRounds st0 hmr hsnap h0
    obtain ⟨fuel, rfl⟩ : ∃ f, maxRounds = f + 1 := ⟨maxRounds - 1, by omega⟩
    exact scrapeJJ_eq_err_loop initRows snap cookie tp maxStale (fuel + 1) st0
      timeoutMsg h0
      (roundLoop_succ_err snap maxStale fuel 0 st0 timeoutMsg
        (by rw [hsnap]; exact stepState_empty st0))

/-- Concrete instance of C8: a collector timeout leaves the filesystem
untouched, and a never-appearing offers section makes the paginated scrape
propagate the timeout. -/
theorem C8_structural_wait_propagates_witness :
    dataScraperScrape (.error timeoutMsg) "data/raw/ppl/waw/j/01012026.html"
        [("data/raw/ppl/waw/j/31122025.html", "<div>old</div>")] =
      (.error timeoutMsg, [("data/raw/ppl/waw/j/31122025.html", "<div>old</div>")])
    ∧ scrapePracuj (fun _ => ⟨false, [], false, false⟩) (.ok ()) (.ok ()) (.ok 0) 400 =
      .error timeoutMsg :=
  ⟨C8_structural_wait_propagates.1 timeoutMsg "data/raw/ppl/waw/j/01012026.html"
      [("data/raw/ppl/waw/j/31122025.html", "<div>old</div>")],
    C8_structural_wait_propagates.2.2.1 (fun _ => ⟨false, [], false, false⟩)
      (.ok ()) (.ok ()) (.ok 0) 400 (by decide) rfl⟩

/-! ### Lexicographic maximum in get_latest_file -/

theorem bool_eq_false {b : Bool} (h : ¬ b = true) : b = false := by
  cases b
  · rfl
  · exact absurd rfl h

theorem charListLt_irrefl : ∀ l : List Char, charListLt l l = false := by
  intro l
  induction l with
  | nil => rfl
  | cons c cs ih => simp [charListLt, lt_irrefl, ih]

theorem charListLt_trans :
    ∀ a b c : List Char, charListLt a b = true → charListLt b c = true →
      charListLt a c = true := by
  intro a
  induction a with
  | nil =>
    intro b c hab hbc
    cases b with
    | nil => simp [charListLt] at hab
    | cons y ys =>
      cases c with
      | nil => simp [charListLt] at hbc
      | cons z zs => rfl
  | cons x xs ih =>
    intro b c hab hbc
    cases b with
    | nil => simp [charListLt] at hab
    | cons y ys =>
      cases c with
      | nil => simp [charListLt] at hbc
      | cons z zs =>
        simp only [charListLt] at hab hbc ⊢
        by_cases hxy : x < y
        · by_cases hyz : y < z
          · rw [if_pos (lt_trans hxy hyz)]
          · by_cases hzy : z < y
            · rw [if_neg hyz, if_pos hzy] at hbc
              exact absurd hbc (by simp)
            · have hyz' : y = z := le_antisymm (not_lt.mp hzy) (not_lt.mp hyz)
              have hxz : x < z := by rw [← hyz']; exact hxy
              rw [if_pos hxz]
        · by_cases hyx : y < x
          · rw [if_neg hxy, if_pos hyx] at hab
            exact absurd hab (by simp)
          · have hxy' : x = y := le_antisymm (not_lt.mp hyx) (not_lt.mp hxy)
            rw [if_neg hxy, if_neg hyx] at hab
            by_cases hyz : y < z
            · have hxz : x < z := by rw [hxy']; exact hyz
              rw [if_pos hxz]
            · by_cases hzy : z < y
              · rw [if_neg hyz, if_pos hzy] at hbc
                exact absurd hbc (by simp)
              · have hyz' : y = z := le_antisymm (not_lt.mp hzy) (not_lt.mp hyz)
                have hxz1 : ¬ x < z := by rw [hxy', hyz']; exact lt_irrefl z
                have hxz2 : ¬ z < x := by rw [hxy', hyz']; exact lt_irrefl z
                rw [if_neg hyz, if_neg hzy] at hbc
                rw [if_neg hxz1, if_neg hxz2]
                exact ih ys zs hab hbc

theorem charListLt_asymm (a b : List Char) (h : charListLt a b = true) :
    charListLt b a = false := by
  by_contra hc
  have hba : charListLt b a = true := by
    cases hx : charListLt b a
    · exact absurd hx hc
    · rfl
  have := charListLt_trans a b a h hba
  rw [charListLt_irrefl] at this
  cases this

theorem charListLt_conn (a b : List Char) (h1 : charListLt a b = false)
    (h2 : charListLt b a = false) : a = b := by
  induction a generalizing b with
  | nil =>
    cases b with
    | nil => rfl
    | cons y ys => simp [charListLt] at h1
  | cons x xs ih =>
    cases b with
    | nil => simp [charListLt] at h2
    | cons y ys =>
      simp only [charListLt] at h1 h2
      by_cases hxy : x < y
      · rw [if_pos hxy] at h1
        exact absurd h1 (by simp)
      · by_cases hyx : y < x
        · rw [if_pos hyx] at h2
          exact absurd h2 (by simp)
        · rw [if_neg hxy, if_neg hyx] at h1
          rw [if_neg hyx, if_neg hxy] at h2
          have hxy' : x = y := le_antisymm (not_lt.mp hyx) (not_lt.mp hxy)
          rw [hxy', ih ys h1 h2]

theorem insertDescStr_perm (a : String) :
    ∀ l, (insertDescStr l a).Perm (a :: l) := by
  intro l
  induction l with
  | nil => exact List.Perm.refl _
  | cons b bs ih =>
    by_cases h : strLtB b a = true
    · rw [insertDescStr, if_pos h]
    · rw [insertDescStr, if_neg h]
      exact (List.Perm.cons b ih).trans (List.Perm.swap a b bs)

theorem foldl_insertDescStr_perm :
    ∀ l acc : List String, (l.foldl insertDescStr acc).Perm (acc ++ l) := by
  intro l
  induction l with
  | nil => intro acc; simp
  | cons a l ih =>
    intro acc
    rw [List.foldl_cons]
    refine (ih (insertDescStr acc a)).trans ?_
    have h1 : (insertDescStr acc a ++ l).Perm ((a :: acc) ++ l) :=
      (insertDescStr_perm a acc).append_right l
    exact h1.trans List.perm_middle.symm

theorem pairwise_insertDescStr (a : String) :
    ∀ l, l.Pairwise (fun x y => strLtB x y = false) →
      (insertDescStr l a).Pairwise (fun x y => strLtB x y = false) := by
  intro l
  induction l with
  | nil => intro _; simp [insertDescStr]
  | cons b bs ih =>
    intro h
    rw [List.pairwise_cons] at h
    obtain ⟨hb, hbs⟩ := h
    by_cases hba : strLtB b a = true
    · rw [insertDescStr, if_pos hba]
      refine List.Pairwise.cons ?_ (List.Pairwise.cons hb hbs)
      intro x hx
      rcases List.mem_cons.mp hx with rfl | hx
      · exact charListLt_asymm _ _ hba
      · by_contra hax
        have hax' : charListLt a.toList x.toList = true := by
          cases hy : strLtB a x
          · exact absurd hy hax
          · exact hy
        have hbx : charListLt b.toList x.toList = true :=
          charListLt_trans _ _ _ hba hax'
        have hbf : charListLt b.toList x.toList = false := hb x hx
        rw [hbf] at hbx
        cases hbx
    · rw [insertDescStr, if_neg hba]
      refine List.Pairwise.cons ?_ (ih hbs)
      intro x hx
      have hx' : x ∈ a :: bs := (insertDescStr_perm a bs).mem_iff.mp hx
      rcases List.mem_cons.mp hx' with rfl | hx'
      · exact bool_eq_false hba
      · exact hb x hx'

theorem pairwise_foldl_insertDescStr :
    ∀ l acc : List String, acc.Pairwise (fun x y => strLtB x y = false) →
      (l.foldl insertDescStr acc).Pairwise (fun x y => strLtB x y = false) := by
  intro l
  induction l with
  | nil => intro acc h; simpa using h
  | cons a l ih =>
    intro acc h
    rw [List.foldl_cons]
    exact ih _ (pairwise_insertDescStr a acc h)

theorem sortDescStr_perm (l : List String) : (sortDescStr l).Perm l := by
  simpa using foldl_insertDescStr_perm l []

theorem sortDescStr_pairwise (l : List String) :
    (sortDescStr l).Pairwise (fun x y => strLtB x y = false) :=
  pairwise_foldl_insertDescStr l [] (by simp)

/-- C9: `get_latest_file` returns `none` exactly when the directory is missing
or holds no file of the requested extension; on a non-empty match set it
returns the lexicographically greatest matching name (first of the
reverse-sorted list), which for the `ddmmyyyy` stems produced by
`get_timestamp` is not in general the most recent calendar date: for the pair
`31012026.html` / `01022026.html` the lexicographic maximum is the January
file even though its date is the earlier one. -/
theorem C9_get_latest_file_lexicographic :
    (∀ ext : String, get_latest_file none ext = none)
    ∧
    (∀ (files : List String) (ext : String),
      get_latest_file (some files) ext = none ↔ globExtension files ext = [])
    ∧
    (∀ (files : List String) (ext f : String),
      get_latest_file (some files) ext = some f →
      f ∈ globExtension files ext ∧ ∀ g ∈ globExtension files ext, strLtB f g = false)
    ∧
    (get_latest_file (some ["01022026.html", "31012026.html"]) "html" =
        some "31012026.html"
      ∧ ∃ a b, ddmmyyyyVal "31012026" = some a ∧ ddmmyyyyVal "01022026" = some b ∧ a < b) := by
  have gdef : ∀ (files : List String) (ext : String),
      get_latest_file (some files) ext =
        match sortDescStr (globExtension files ext) with
        | [] => none
        | f :: _ => some f := fun _ _ => rfl
  refine ⟨fun _ => rfl, ?_, ?_,
    ⟨by decide, 20260131, 20260201, by decide, by decide, by decide⟩⟩
  · intro files ext
    rw [gdef]
    constructor
    · intro h
      cases hs : sortDescStr (globExtension files ext) with
      | nil =>
        have hp := sortDescStr_perm (globExtension files ext)
        rw [hs] at hp
        exact hp.symm.eq_nil
      | cons f rest =>
        rw [hs] at h
        cases h
    · intro h
      rw [h]
      rfl
  · intro files ext f h
    rw [gdef] at h
    cases hs : sortDescStr (globExtension files ext) with
    | nil =>
      rw [hs] at h
      cases h
    | cons f' rest =>
      rw [hs] at h
      have hf : f = f' := ((Option.some.injEq _ _).mp h).symm
      subst hf
      have hp := sortDescStr_perm (globExtension files ext)
      rw [hs] at hp
      constructor
      · exact hp.subset (List.mem_cons_self _ _)
      · intro g hg
        have hg' : g ∈ f :: rest := hp.symm.subset hg
        rcases List.mem_cons.mp hg' with rfl | hg'
        · exact charListLt_irrefl _
        · have hpw := sortDescStr_pairwise (globExtension files ext)
          rw [hs, List.pairwise_cons] at hpw
          exact hpw.1 g hg'

/-- Concrete instance of C9: with the two files of the claim, the returned
"latest" file is `31012026.html`, the lexicographic maximum of the match
set. -/
theorem C9_get_latest_file_lexicographic_witness :
    get_latest_file (some ["01022026.html", "31012026.html"]) "html" =
      some "31012026.html"
    ∧ ("31012026.html" ∈ globExtension ["01022026.html", "31012026.html"] "html"
      ∧ ∀ g ∈ globExtension ["01022026.html", "31012026.html"] "html",
          strLtB "31012026.html" g = false) :=
  ⟨by decide,
    C9_get_latest_file_lexicographic.2.2.1 ["01022026.html", "31012026.html"] "html"
      "31012026.html" (by decide)⟩

/-! ### Keys must parse as integers -/

/-- A snapshot row whose `data-index` attribute, when present, parses under
`int(...)`. -/
def idxParses (r : Row) : Bool :=
  match r.1 with
  | none => true
  | some s => (parseInt s).isSome

theorem parseKeys_isSome_iff (s : List (String × String)) :
    (parseKeys s).isSome ↔ ∀ kv ∈ s, (parseInt kv.1).isSome := by
  unfold parseKeys
  exact mapOpt_isSome_iff _ s

theorem parseKeys_collect (rows : List Row) (seen : List (String × String))
    (hseen : (parseKeys seen).isSome) (hrows : ∀ r ∈ rows, idxParses r = true) :
    (parseKeys (collect_visible_items rows seen)).isSome := by
  have hs : ∀ kv ∈ seen, (parseInt kv.1).isSome :=
    (parseKeys_isSome_iff seen).mp hseen
  rw [parseKeys_isSome_iff]
  intro kv hkv
  rcases mem_foldl_insertRow rows seen kv hkv with h1 | ⟨r, hr, h2, _⟩
  · exact hs kv h1
  · have hp := hrows r hr
    unfold idxParses at hp
    rw [h2] at hp
    exact hp

theorem parseKeys_none_of_bad_key (s : List (String × String)) (k : String)
    (hk : k ∈ s.map Prod.fst) (hbad : parseInt k = none) :
    (parseKeys s).isSome = false := by
  apply bool_eq_false
  intro hsome
  obtain ⟨kv, hkv, rfl⟩ := List.mem_map.mp hk
  have := (parseKeys_isSome_iff s).mp hsome kv hkv
  rw [hbad] at this
  cases this

theorem initSt_err_of_maxIdx (initRows : List Row)
    (hmi : maxIdx (collect_visible_items initRows []) = none) :
    initSt initRows = .error intErrMsg := by
  unfold initSt
  simp only [hmi]

theorem roundLoop_succ_ok_fields (snap : Nat → List Row) (maxStale fuel t : Nat)
    (st : LoopState) (seen : List (String × String)) (stale cnt : Nat) (m : Int)
    (h : stepState (snap t) st = .ok ⟨seen, stale, cnt, m⟩) :
    roundLoop snap maxStale (fuel + 1) t st =
      if maxStale ≤ stale then .ok seen
      else roundLoop snap maxStale fuel (t + 1) ⟨seen, stale, cnt, m⟩ := by
  rw [roundLoop, h]

theorem roundLoop_total (snap : Nat → List Row) (maxStale : Nat)
    (hrows : ∀ u : Nat, ∀ r ∈ snap u, idxParses r = true) :
    ∀ (fuel t : Nat) (st : LoopState),
      (∀ j, j < t + fuel → t ≤ j → snap j ≠ []) →
      (parseKeys st.seen).isSome →
      ∃ s, roundLoop snap maxStale fuel t st = .ok s ∧ (parseKeys s).isSome := by
  intro fuel
  induction fuel with
  | zero => intro t st _ hseen; exact ⟨st.seen, rfl, hseen⟩
  | succ fuel ih =>
    intro t st hwait hseen
    have hne : snap t ≠ [] := hwait t (by omega) (by omega)
    have hparse' : (parseKeys (collect_visible_items (snap t) st.seen)).isSome :=
      parseKeys_collect (snap t) st.seen hseen (hrows t)
    obtain ⟨m, hm⟩ := Option.isSome_iff_exists.mp
      ((maxIdx_isSome_iff (collect_visible_items (snap t) st.seen)).mpr hparse')
    have hstep := stepState_ok (snap t) st hne m hm
    set stale := if progressed st (collect_visible_items (snap t) st.seen).length m
      then 0 else st.staleRounds + 1 with hstale
    rw [roundLoop_succ_ok_fields snap maxStale fuel t st
      (collect_visible_items (snap t) st.seen) stale
      (collect_visible_items (snap t) st.seen).length m hstep]
    by_cases hstop : maxStale ≤ stale
    · rw [if_pos hstop]
      exact ⟨collect_visible_items (snap t) st.seen, rfl, hparse'⟩
    · rw [if_neg hstop]
      exact ih (t + 1)
        ⟨collect_visible_items (snap t) st.seen, stale,
         (collect_visible_items (snap t) st.seen).length, m⟩
        (fun j h1 h2 => hwait j (by omega) (by omega)) hparse'

/-- C10: the keyed collector's `scrape` is total only under the precondition
that every collected `data-index` key parses under `int(...)`: (1) when every
key of the initial snapshot and of every round's snapshot parses (and the
per-round waits are satisfiable), `scrape` returns a merged document; (2) an
unparsable key in the initial snapshot makes the pre-loop maximum-key
computation raise, so `scrape` returns the `int()` error; and (3) with a clean
initial snapshot, an unparsable key in the first round's snapshot makes the
per-round maximum-key computation raise likewise. -/
theorem C10_keys_must_parse :
    (∀ (initRows : List Row) (snap : Nat → List Row) (cookie : Except String Unit)
       (tp : Except String Nat) (maxStale maxRounds : Nat),
      (∀ r ∈ initRows, idxParses r = true) →
      (∀ u : Nat, ∀ r ∈ snap u, idxParses r = true) →
      (∀ t < maxRounds, snap t ≠ []) →
      ∃ doc, scrapeJJ initRows snap cookie tp maxStale maxRounds = .ok doc)
    ∧
    (∀ (initRows : List Row) (snap : Nat → List Row) (cookie : Except String Unit)
       (tp : Except String Nat) (maxStale maxRounds : Nat) (r : Row) (k : String),
      r ∈ initRows → r.1 = some k → parseInt k = none →
      scrapeJJ initRows snap cookie tp maxStale maxRounds = .error intErrMsg)
    ∧
    (∀ (initRows : List Row) (snap : Nat → List Row) (cookie : Except String Unit)
       (tp : Except String Nat) (maxStale maxRounds : Nat) (r : Row) (k : String),
      (∀ r' ∈ initRows, idxParses r' = true) →
      1 ≤ maxRounds → r ∈ snap 0 → r.1 = some k → parseInt k = none →
      scrapeJJ initRows snap cookie tp maxStale maxRounds = .error intErrMsg) := by
  refine ⟨?_, ?_, ?_⟩
  · intro initRows snap cookie tp maxStale maxRounds hinit hsnap hwait
    have hparse0 : (parseKeys (collect_visible_items initRows [])).isSome :=
      parseKeys_collect initRows [] (by rfl) hinit
    obtain ⟨m, hm⟩ := Option.isSome_iff_exists.mp
      ((maxIdx_isSome_iff (collect_visible_items initRows [])).mpr hparse0)
    have h0 := initSt_ok_of_maxIdx initRows m hm
    obtain ⟨s, hs, hps⟩ := roundLoop_total snap maxStale hsnap maxRounds 0
      ⟨collect_visible_items initRows [], 0,
       (collect_visible_items initRows []).length, m⟩
      (fun j h1 _ => hwait j (by omega)) hparse0
    obtain ⟨doc, hdoc⟩ := mergeDocument_ok_of s hps
    exact ⟨doc, by
      rw [scrapeJJ_eq_ok initRows snap cookie tp maxStale maxRounds _ s h0 hs]
      exact hdoc⟩
  · intro initRows snap cookie tp maxStale maxRounds r k hr hk hbad
    have hkmem : k ∈ (collect_visible_items initRows []).map Prod.fst :=
      key_mem_foldl_of_mem initRows [] r k hr hk
    have hnone : (parseKeys (collect_visible_items initRows [])).isSome = false :=
      parseKeys_none_of_bad_key _ k hkmem hbad
    have hmi : maxIdx (collect_visible_items initRows []) = none := by
      have := maxIdx_isSome_iff (collect_visible_items initRows [])
      rw [hnone] at this
      exact Option.not_isSome_iff_eq_none.mp (by
        intro hc
        rw [this] at hc
        cases hc)
    exact scrapeJJ_eq_err_init initRows snap cookie tp maxStale maxRounds intErrMsg
      (initSt_err_of_maxIdx initRows hmi)
  · intro initRows snap cookie tp maxStale maxRounds r k hinit hmr hr hk hbad
    have hparse0 : (parseKeys (collect_visible_items initRows [])).isSome :=
      parseKeys_collect initRows [] (by rfl) hinit
    obtain ⟨m, hm⟩ := Option.isSome_iff_exists.mp
      ((maxIdx_isSome_iff (collect_visible_items initRows [])).mpr hparse0)
    have h0 := initSt_ok_of_maxIdx initRows m hm
    obtain ⟨fuel, rfl⟩ : ∃ f, maxRounds = f + 1 := ⟨maxRounds - 1, by omega⟩
    have hne : snap 0 ≠ [] := by
      intro hc
      rw [hc] at hr
      exact List.not_mem_nil r hr
    have hkmem : k ∈ (collect_visible_items (snap 0)
        (collect_visible_items initRows [])).map Prod.fst :=
      key_mem_foldl_of_mem (snap 0) (collect_visible_items initRows []) r k hr hk
    have hnone : (parseKeys (collect_visible_items (snap 0)
        (collect_visible_items initRows []))).isSome = false :=
      parseKeys_none_of_bad_key _ k hkmem hbad
    have hmi : maxIdx (collect_visible_items (snap 0)
        (collect_visible_items initRows [])) = none := by
      have := maxIdx_isSome_iff (collect_visible_items (snap 0)
        (collect_visible_items initRows []))
      rw [hnone] at this
      exact Option.not_isSome_iff_eq_none.mp (by
        intro hc
        rw [this] at hc
        cases hc)
    refine scrapeJJ_eq_err_loop initRows snap cookie tp maxStale (fuel + 1) _
      intErrMsg h0 ?_
    exact roundLoop_succ_err snap maxStale fuel 0 _ intErrMsg
      (stepState_parse_fail (snap 0) _ hne hmi)

/-- Concrete instance of C10: with all keys numeric the scrape completes; the
hypotheses are discharged at an environment with one initial item and one
constant round snapshot. -/
theorem C10_keys_must_parse_witness :
    ∃ doc, scrapeJJ [(some "0", "A")] (fun _ => [(some "1", "B")])
      (.ok ()) (.ok 2) 5 1 = .ok doc :=
  C10_keys_must_parse.1 [(some "0", "A")] (fun _ => [(some "1", "B")])
    (.ok ()) (.ok 2) 5 1 (by decide)
    (fun u r hr => by
      have hre : r = (some "1", "B") := by simpa using hr
      rw [hre]
      decide)
    (by decide)

end Etl
